import Mathlib

/-!
Verification of the receive-side active-stage pipeline of the IronRDP client.

Shallow embedding of the Rust sources:
  * `src/ironrdp_client/src/active_session/x224.rs` (DVC reassembly, X224 processor)
  * `src/ironrdp_client/src/active_session/x224/gfx.rs` (GFX handler)
  * `src/ironrdp_client/src/active_session.rs` (active-stage loop)
  * `src/ironrdp_client/src/transport.rs` (Send-Data-Context decoding)
  * `src/ironrdp-session/src/active_session/codecs/rfx.rs` (RFX sequence engine)
  * `src/ironrdp/src/lib.rs` (one-PDU framed reader)

Bytes are modelled as `Nat` values, byte buffers as `List Nat`, `usize`/`u16`
as `Nat` (the code paths verified here perform no wrapping arithmetic).
-/

namespace IronRdp

/-! ## CompleteData reassembler (x224.rs, lines 354-415) -/

/-- `struct CompleteData { total_size: usize, data: Vec<u8> }`. -/
structure CompleteData where
  total_size : Nat
  data : List Nat
  deriving Repr, DecidableEq

/-- `CompleteData::new()`. -/
def CompleteData.new : CompleteData := { total_size := 0, data := [] }

/-- `CompleteData::process_data_first_pdu` (x224.rs lines 368-383).
Returns the updated state together with the optional complete message. -/
def CompleteData.process_data_first_pdu (s : CompleteData) (total_data_size : Nat)
    (data : List Nat) : CompleteData × Option (List Nat) :=
  -- `if self.total_size != 0 || !self.data.is_empty() { self.data.clear(); }`
  let s := if s.total_size ≠ 0 ∨ s.data ≠ [] then { s with data := [] } else s
  if total_data_size = data.length then
    (s, some data)
  else
    ({ s with total_size := total_data_size, data := data }, none)

/-- `CompleteData::process_data_pdu` (x224.rs lines 385-414). -/
def CompleteData.process_data_pdu (s : CompleteData) (data : List Nat) :
    CompleteData × Option (List Nat) :=
  if s.total_size = 0 ∧ s.data = [] then
    -- message is not fragmented
    (s, some data)
  else
    -- message is fragmented so need to reassemble it
    let actual_data_length := s.data.length + data.length
    if actual_data_length < s.total_size then
      ({ s with data := s.data ++ data }, none)
    else if actual_data_length = s.total_size then
      ({ s with total_size := 0, data := [] }, some (s.data ++ data))
    else
      ({ s with total_size := 0, data := [] }, none)

/-- The spec invariant: idle (`total_size = 0` and empty buffer) or reassembling
(`buffer.len() < total_size`). -/
def CompleteData.inv (s : CompleteData) : Prop :=
  (s.total_size = 0 ∧ s.data = []) ∨ s.data.length < s.total_size

instance (s : CompleteData) : Decidable s.inv := by
  unfold CompleteData.inv; infer_instance

/-- One call of the reassembler: either a DataFirst or a Data PDU. -/
inductive DvcCall where
  | first (total : Nat) (bytes : List Nat)
  | data (bytes : List Nat)
  deriving Repr, DecidableEq

/-- Run a sequence of reassembler calls, ignoring the returned payloads. -/
def CompleteData.runCalls (s : CompleteData) : List DvcCall → CompleteData
  | [] => s
  | DvcCall.first total bytes :: rest =>
      ((s.process_data_first_pdu total bytes).1).runCalls rest
  | DvcCall.data bytes :: rest =>
      ((s.process_data_pdu bytes).1).runCalls rest

/-- A `process_data_first_pdu` call whose payload does not exceed its announced
total size (the side condition of the amended C1 invariant); `Data` calls are
unconstrained. -/
def DvcCall.firstOk : DvcCall → Prop
  | .first total bytes => bytes.length ≤ total
  | .data _ => True

instance (c : DvcCall) : Decidable c.firstOk := by
  cases c <;> unfold DvcCall.firstOk <;> infer_instance

/-- Run the calls collecting every complete message handed to the channel
handler (`DynamicChannel::process_data_first_pdu` / `process_data_pdu`,
x224.rs lines 337-351, invoke the handler exactly on each `Some` result). -/
def CompleteData.runCollect (s : CompleteData) : List DvcCall → CompleteData × List (List Nat)
  | [] => (s, [])
  | DvcCall.first total bytes :: rest =>
      let step := s.process_data_first_pdu total bytes
      let next := step.1.runCollect rest
      (next.1, step.2.toList ++ next.2)
  | DvcCall.data bytes :: rest =>
      let step := s.process_data_pdu bytes
      let next := step.1.runCollect rest
      (next.1, step.2.toList ++ next.2)

lemma CompleteData.inv_process_data_pdu (s : CompleteData) (d : List Nat) :
    ((s.process_data_pdu d).1).inv := by
  unfold CompleteData.process_data_pdu
  by_cases hidle : s.total_size = 0 ∧ s.data = []
  · simp only [if_pos hidle]
    exact Or.inl hidle
  · simp only [if_neg hidle]
    by_cases hlt : s.data.length + d.length < s.total_size
    · simp only [if_pos hlt, CompleteData.inv, List.length_append]
      exact Or.inr hlt
    · by_cases heqc : s.data.length + d.length = s.total_size
      · simp only [if_neg hlt, if_pos heqc]
        exact Or.inl ⟨rfl, rfl⟩
      · simp only [if_neg hlt, if_neg heqc]
        exact Or.inl ⟨rfl, rfl⟩

lemma CompleteData.inv_process_data_first_pdu (s : CompleteData) (total : Nat)
    (d : List Nat) (h : d.length ≤ total) :
    ((s.process_data_first_pdu total d).1).inv := by
  unfold CompleteData.process_data_first_pdu
  by_cases hdirty : s.total_size ≠ 0 ∨ s.data ≠ []
  · simp only [if_pos hdirty]
    by_cases heq : total = d.length
    · simp only [if_pos heq, CompleteData.inv]
      rcases Nat.eq_zero_or_pos s.total_size with h0 | h0
      · exact Or.inl ⟨h0, by simp⟩
      · exact Or.inr (by simpa using h0)
    · simp only [if_neg heq, CompleteData.inv]
      exact Or.inr (lt_of_le_of_ne h fun hc => heq hc.symm)
  · push_neg at hdirty
    simp only [if_neg (by simp [hdirty.1, hdirty.2] : ¬(s.total_size ≠ 0 ∨ s.data ≠ []))]
    by_cases heq : total = d.length
    · simp only [if_pos heq]
      exact Or.inl hdirty
    · simp only [if_neg heq, CompleteData.inv]
      exact Or.inr (lt_of_le_of_ne h fun hc => heq hc.symm)

lemma CompleteData.inv_runCalls (s : CompleteData) (calls : List DvcCall)
    (hs : s.inv) (hfirst : ∀ c ∈ calls, c.firstOk) :
    (s.runCalls calls).inv := by
  induction calls generalizing s with
  | nil => exact hs
  | cons c rest ih =>
      cases c with
      | first total bytes =>
          exact ih _
            (s.inv_process_data_first_pdu total bytes
              (hfirst _ (List.mem_cons_self _ _)))
            fun c hc => hfirst c (List.mem_cons_of_mem _ hc)
      | data bytes =>
          exact ih _ (s.inv_process_data_pdu bytes)
            fun c hc => hfirst c (List.mem_cons_of_mem _ hc)

/-! ## Claims C1 and C2 -/

/-- C1 (counterexample): a single `process_data_first_pdu(total=0, bytes=[1])`
call on a fresh `CompleteData` leaves `total_size = 0` with a non-empty
buffer, so the state is neither idle nor satisfies `buffer.len() < total_size`:
the claimed invariant fails for arbitrary total sizes and payloads. -/
theorem C1_counterexample :
    ¬ (CompleteData.new.runCalls [DvcCall.first 0 [1]]).inv := by decide

/-- C1 (amended): for every `CompleteData` state satisfying the invariant,
after any sequence of `process_data_first_pdu` / `process_data_pdu` calls in
which every `process_data_first_pdu` call satisfies `bytes.len() ≤ total`,
the state is idle (`total_size = 0` and empty buffer) or reassembling
(`buffer.len() < total_size`); in particular this holds from the fresh state. -/
theorem C1_invariant :
    CompleteData.new.inv ∧
    ∀ (s : CompleteData) (calls : List DvcCall), s.inv →
      (∀ c ∈ calls, c.firstOk) →
      (s.runCalls calls).inv :=
  ⟨Or.inl ⟨rfl, rfl⟩, fun s calls hs hfirst => s.inv_runCalls calls hs hfirst⟩

/-- C1 (witness for the amended invariant): the DataFirst/Data/Data sequence
of the spec's fragmented-DVC scenario keeps the invariant. -/
theorem C1_invariant_witness :
    (CompleteData.new.runCalls
      [DvcCall.first 10 [1, 2, 3, 4], DvcCall.data [5, 6, 7],
        DvcCall.data [8, 9, 10]]).inv :=
  C1_invariant.2 CompleteData.new
    [DvcCall.first 10 [1, 2, 3, 4], DvcCall.data [5, 6, 7], DvcCall.data [8, 9, 10]]
    (by decide) (by decide)

/-- C2: `process_data_pdu` returns the bytes unchanged on an idle reassembler;
otherwise it compares `buffer.len() + bytes.len()` with `total_size`: less →
append and return `None`; equal → append, reset `total_size` to `0` and return
the whole reassembled buffer; greater → reset and return `None`. The scenario
DataFirst(total=10, [1,2,3,4]); Data([5,6,7]); Data([8,9,10]) hands the channel
handler exactly one complete message, `[1,...,10]`. -/
theorem C2_process_data_pdu :
    (∀ (s : CompleteData) (d : List Nat), s.total_size = 0 → s.data = [] →
        s.process_data_pdu d = (s, some d)) ∧
    (∀ (s : CompleteData) (d : List Nat), ¬(s.total_size = 0 ∧ s.data = []) →
        (s.data.length + d.length < s.total_size →
          s.process_data_pdu d = ({ s with data := s.data ++ d }, none)) ∧
        (s.data.length + d.length = s.total_size →
          s.process_data_pdu d =
            ({ s with total_size := 0, data := [] }, some (s.data ++ d))) ∧
        (s.total_size < s.data.length + d.length →
          s.process_data_pdu d = ({ s with total_size := 0, data := [] }, none))) ∧
    (CompleteData.new.runCollect
        [DvcCall.first 10 [1, 2, 3, 4], DvcCall.data [5, 6, 7],
          DvcCall.data [8, 9, 10]]).2 = [[1, 2, 3, 4, 5, 6, 7, 8, 9, 10]] := by
  refine ⟨fun s d h1 h2 => ?_, fun s d hni => ⟨fun hlt => ?_, fun heq => ?_, fun hgt => ?_⟩, by decide⟩
  · unfold CompleteData.process_data_pdu
    rw [if_pos ⟨h1, h2⟩]
  · unfold CompleteData.process_data_pdu
    rw [if_neg hni]
    simp only [if_pos hlt]
  · unfold CompleteData.process_data_pdu
    rw [if_neg hni]
    rw [if_neg (show ¬ s.data.length + d.length < s.total_size by omega), if_pos heq]
  · unfold CompleteData.process_data_pdu
    rw [if_neg hni]
    have h1 : ¬ s.data.length + d.length < s.total_size := Nat.lt_asymm hgt
    have h2 : ¬ s.data.length + d.length = s.total_size := Nat.ne_of_gt hgt
    simp only [if_neg h1, if_neg h2]

/-- C2 (witness): the branch equations instantiated on the fragmented-DVC
scenario's intermediate states. -/
theorem C2_process_data_pdu_witness :
    CompleteData.process_data_pdu ⟨0, []⟩ [9] = (⟨0, []⟩, some [9]) ∧
    CompleteData.process_data_pdu ⟨10, [1, 2, 3, 4]⟩ [5, 6, 7] = (⟨10, [1, 2, 3, 4, 5, 6, 7]⟩, none) ∧
    CompleteData.process_data_pdu ⟨10, [1, 2, 3, 4, 5, 6, 7]⟩ [8, 9, 10] =
      (⟨0, []⟩, some [1, 2, 3, 4, 5, 6, 7, 8, 9, 10]) ∧
    CompleteData.process_data_pdu ⟨5, [1, 2, 3]⟩ [4, 5, 6] = (⟨0, []⟩, none) :=
  ⟨C2_process_data_pdu.1 ⟨0, []⟩ [9] rfl rfl,
    by
      have h := (C2_process_data_pdu.2.1 ⟨10, [1, 2, 3, 4]⟩ [5, 6, 7] (by decide)).1 (by decide)
      simpa using h,
    by
      have h := (C2_process_data_pdu.2.1 ⟨10, [1, 2, 3, 4, 5, 6, 7]⟩ [8, 9, 10] (by decide)).2.1 (by decide)
      simpa using h,
    by
      have h := (C2_process_data_pdu.2.1 ⟨5, [1, 2, 3]⟩ [4, 5, 6] (by decide)).2.2 (by decide)
      simpa using h⟩

/-! ## RFX sequence engine (ironrdp-session rfx.rs)

The PDU parsers (`SyncPdu::from_buffer_consume`, `Headers::from_buffer_consume`,
...) live in the `ironrdp` crate's `codecs::rfx` module, outside the sources at
hand, so the input byte stream is modelled at the granularity of already-parsed
RFX messages: reading a `SyncPdu` succeeds exactly when the next message is a
sync PDU, reading a `Headers` succeeds exactly when the next message is one of
the three header PDUs. -/

inductive EntropyAlgorithm where
  | rlgr1
  | rlgr3
  deriving Repr, DecidableEq

/-- `rfx::ContextPdu { flags, entropy_algorithm }`; of the operating-mode flags
only `IMAGE_MODE` is inspected by the sequence engine. -/
structure ContextPdu where
  image_mode : Bool
  entropy_algorithm : EntropyAlgorithm
  deriving Repr, DecidableEq

/-- One announced RFX channel (width and height in pixels). -/
structure RfxChannel where
  width : Nat
  height : Nat
  deriving Repr, DecidableEq

/-- `rfx::Headers`: the three header PDUs that may follow the sync PDU. -/
inductive RfxHeaders where
  | context (c : ContextPdu)
  | channels (cs : List RfxChannel)
  | codecVersions
  deriving Repr, DecidableEq

/-- `RfxRectangle`: a source rectangle of the region PDU, given by offset and
size. -/
structure RfxRectangle where
  x : Nat
  y : Nat
  width : Nat
  height : Nat
  deriving Repr, DecidableEq

/-- `ironrdp::Rectangle` (utils): an axis-aligned rectangle given by edges. -/
structure Rectangle where
  left : Nat
  top : Nat
  right : Nat
  bottom : Nat
  deriving Repr, DecidableEq

/-- `rfx::Quant`: ten 4-bit quantization factors, one per DWT subband. -/
structure Quant where
  ll3 : Nat
  lh3 : Nat
  hl3 : Nat
  hh3 : Nat
  lh2 : Nat
  hl2 : Nat
  hh2 : Nat
  lh1 : Nat
  hl1 : Nat
  hh1 : Nat
  deriving Repr, DecidableEq

/-- `rfx::Tile`: coordinates in 64-pixel units, three quant-table indices and
three encoded component data slices. -/
structure Tile where
  x : Nat
  y : Nat
  y_quant_index : Nat
  cb_quant_index : Nat
  cr_quant_index : Nat
  y_data : List Nat
  cb_data : List Nat
  cr_data : List Nat
  deriving Repr, DecidableEq

/-- `rfx::TileSetPdu`: the sent quantization tables and the tiles. -/
structure TileSetPdu where
  quants : List Quant
  tiles : List Tile
  deriving Repr, DecidableEq

/-- `RfxError`: the error cases of `RdpError` reachable from the RFX sequence
engine (wire-parsing failures collapsed into `parseError`). -/
inductive RfxError where
  | parseError
  | mandatoryHeaderIsAbsent
  | noRfxChannelsAnnounced
  deriving Repr, DecidableEq

/-- One parsed message of the RFX input stream. -/
inductive RfxMessage where
  | sync
  | header (h : RfxHeaders)
  | frameBegin (index : Nat)
  | region (rectangles : List RfxRectangle)
  | tileSet (ts : TileSetPdu)
  | frameEnd
  deriving Repr, DecidableEq

/-- `enum SequenceState { HeaderMessages, DataMessages }`. -/
inductive SequenceState where
  | headerMessages
  | dataMessages
  deriving Repr, DecidableEq

/-- `DecodingContext` (rfx.rs lines 29-34) without the reusable tile scratch
buffers, which carry no decision-relevant state. -/
structure DecodingContext where
  state : SequenceState
  context : ContextPdu
  channels : List RfxChannel
  deriving Repr, DecidableEq

/-- `SyncPdu::from_buffer_consume`: succeeds iff the next message is a sync. -/
def readSync : List RfxMessage → Except RfxError (List RfxMessage)
  | RfxMessage.sync :: rest => Except.ok rest
  | _ => Except.error RfxError.parseError

/-- `Headers::from_buffer_consume`: succeeds iff the next message is one of the
three header PDUs. -/
def readHeader : List RfxMessage → Except RfxError (RfxHeaders × List RfxMessage)
  | RfxMessage.header h :: rest => Except.ok (h, rest)
  | _ => Except.error RfxError.parseError

/-- The body of the `for _ in 0..3` loop of `process_headers`: record the last
seen context and channel list, ignore codec versions. -/
def applyHeader (acc : Option ContextPdu × Option (List RfxChannel)) :
    RfxHeaders → Option ContextPdu × Option (List RfxChannel)
  | RfxHeaders.context c => (some c, acc.2)
  | RfxHeaders.channels cs => (acc.1, some cs)
  | RfxHeaders.codecVersions => acc

/-- `DecodingContext::process_headers` (rfx.rs lines 73-99): consume one sync
PDU, then exactly three header PDUs in any order; `Context` and `Channels` are
mandatory, an empty channel list is rejected, otherwise they are stored and the
sequence state moves to `DataMessages`. -/
def DecodingContext.process_headers (_st : DecodingContext) (input : List RfxMessage) :
    Except RfxError (DecodingContext × List RfxMessage) :=
  match readSync input with
  | Except.error e => Except.error e
  | Except.ok input =>
    match readHeader input with
    | Except.error e => Except.error e
    | Except.ok (h1, input) =>
      match readHeader input with
      | Except.error e => Except.error e
      | Except.ok (h2, input) =>
        match readHeader input with
        | Except.error e => Except.error e
        | Except.ok (h3, input) =>
          match [h1, h2, h3].foldl applyHeader (none, none) with
          | (none, _) => Except.error RfxError.mandatoryHeaderIsAbsent
          | (some _, none) => Except.error RfxError.mandatoryHeaderIsAbsent
          | (some context, some channels) =>
            if channels = [] then
              Except.error RfxError.noRfxChannelsAnnounced
            else
              Except.ok (⟨SequenceState.dataMessages, context, channels⟩, input)

/-- Whether a header PDU is a `Context` header. -/
def isContextHdr : RfxHeaders → Bool
  | RfxHeaders.context _ => true
  | _ => false

/-- Whether a header PDU is a `Channels` header. -/
def isChannelsHdr : RfxHeaders → Bool
  | RfxHeaders.channels _ => true
  | _ => false

/-- A sync PDU followed by three header PDUs and a remainder. -/
def headerStream (h1 h2 h3 : RfxHeaders) (rest : List RfxMessage) : List RfxMessage :=
  RfxMessage.sync :: RfxMessage.header h1 :: RfxMessage.header h2 ::
    RfxMessage.header h3 :: rest

lemma foldl_applyHeader_fst (hs : List RfxHeaders)
    (acc : Option ContextPdu × Option (List RfxChannel)) :
    (hs.foldl applyHeader acc).1 = none ↔ acc.1 = none ∧ hs.any isContextHdr = false := by
  induction hs generalizing acc with
  | nil => simp
  | cons h t ih => cases h <;> simp [applyHeader, ih, isContextHdr]

lemma foldl_applyHeader_snd (hs : List RfxHeaders)
    (acc : Option ContextPdu × Option (List RfxChannel)) :
    (hs.foldl applyHeader acc).2 = none ↔ acc.2 = none ∧ hs.any isChannelsHdr = false := by
  induction hs generalizing acc with
  | nil => simp
  | cons h t ih => cases h <;> simp [applyHeader, ih, isChannelsHdr]

/-- C3: on a sync PDU followed by three header PDUs (any order), the
header-message processing returns `MandatoryHeaderIsAbsent` exactly when no
`Context` or no `Channels` header is among the three; with both present it
returns `NoRfxChannelsAnnounced` when the announced channel list is empty, and
otherwise stores the (last seen) context and channels, moves the sequence state
to `DataMessages` and consumes exactly the sync and the three headers. -/
theorem C3_process_headers (st : DecodingContext) (h1 h2 h3 : RfxHeaders)
    (rest : List RfxMessage) :
    (st.process_headers (headerStream h1 h2 h3 rest) =
        Except.error RfxError.mandatoryHeaderIsAbsent ↔
      [h1, h2, h3].any isContextHdr = false ∨ [h1, h2, h3].any isChannelsHdr = false) ∧
    (∀ ctx cs, [h1, h2, h3].foldl applyHeader (none, none) = (some ctx, some cs) →
      (cs = [] →
        st.process_headers (headerStream h1 h2 h3 rest) =
          Except.error RfxError.noRfxChannelsAnnounced) ∧
      (cs ≠ [] →
        st.process_headers (headerStream h1 h2 h3 rest) =
          Except.ok (⟨SequenceState.dataMessages, ctx, cs⟩, rest))) := by
  constructor
  · rcases hacc : [h1, h2, h3].foldl applyHeader (none, none) with ⟨c, s⟩
    cases c with
    | none =>
        have hany : [h1, h2, h3].any isContextHdr = false :=
          ((foldl_applyHeader_fst [h1, h2, h3] (none, none)).mp (by rw [hacc])).2
        refine iff_of_true ?_ (Or.inl hany)
        simp [DecodingContext.process_headers, headerStream, readSync, readHeader,
          Except.bind, hacc]
    | some ctx =>
        cases s with
        | none =>
            have hany : [h1, h2, h3].any isChannelsHdr = false :=
              ((foldl_applyHeader_snd [h1, h2, h3] (none, none)).mp (by rw [hacc])).2
            refine iff_of_true ?_ (Or.inr hany)
            simp [DecodingContext.process_headers, headerStream, readSync, readHeader,
              Except.bind, hacc]
        | some cs =>
            have hctx : ¬ [h1, h2, h3].any isContextHdr = false := fun hf => by
              have h := (foldl_applyHeader_fst [h1, h2, h3] (none, none)).mpr ⟨rfl, hf⟩
              rw [hacc] at h
              exact Option.some_ne_none ctx h
            have hchn : ¬ [h1, h2, h3].any isChannelsHdr = false := fun hf => by
              have h := (foldl_applyHeader_snd [h1, h2, h3] (none, none)).mpr ⟨rfl, hf⟩
              rw [hacc] at h
              exact Option.some_ne_none cs h
            refine iff_of_false ?_ (by simp [hctx, hchn])
            simp only [DecodingContext.process_headers, headerStream, readSync, readHeader,
              Except.bind, hacc]
            split_ifs <;> simp
  · intro ctx cs hacc
    constructor
    · intro hcs
      simp [DecodingContext.process_headers, headerStream, readSync, readHeader,
        Except.bind, hacc, hcs]
    · intro hcs
      simp [DecodingContext.process_headers, headerStream, readSync, readHeader,
        Except.bind, hacc, hcs]

/-- C3 (witness): with Context omitted among the three headers the result is
`MandatoryHeaderIsAbsent`; with Context and a non-empty Channels present the
engine stores them and moves to `DataMessages` consuming exactly four PDUs. -/
theorem C3_process_headers_witness :
    DecodingContext.process_headers
        ⟨SequenceState.headerMessages, ⟨false, EntropyAlgorithm.rlgr1⟩, []⟩
        (headerStream RfxHeaders.codecVersions RfxHeaders.codecVersions
          (RfxHeaders.channels [⟨1024, 768⟩]) []) =
      Except.error RfxError.mandatoryHeaderIsAbsent ∧
    DecodingContext.process_headers
        ⟨SequenceState.headerMessages, ⟨false, EntropyAlgorithm.rlgr1⟩, []⟩
        (headerStream (RfxHeaders.context ⟨false, EntropyAlgorithm.rlgr1⟩)
          (RfxHeaders.channels [⟨1024, 768⟩]) RfxHeaders.codecVersions []) =
      Except.ok (⟨SequenceState.dataMessages, ⟨false, EntropyAlgorithm.rlgr1⟩,
        [⟨1024, 768⟩]⟩, []) :=
  ⟨(C3_process_headers ⟨SequenceState.headerMessages, ⟨false, EntropyAlgorithm.rlgr1⟩, []⟩
      RfxHeaders.codecVersions RfxHeaders.codecVersions
      (RfxHeaders.channels [⟨1024, 768⟩]) []).1.mpr (Or.inl (by decide)),
    ((C3_process_headers ⟨SequenceState.headerMessages, ⟨false, EntropyAlgorithm.rlgr1⟩, []⟩
      (RfxHeaders.context ⟨false, EntropyAlgorithm.rlgr1⟩)
      (RfxHeaders.channels [⟨1024, 768⟩]) RfxHeaders.codecVersions []).2
      ⟨false, EntropyAlgorithm.rlgr1⟩ [⟨1024, 768⟩] (by decide)).2 (by decide)⟩

/-! ## RFX data messages (rfx.rs lines 101-260) -/

/-- `TILE_SIZE` (rfx.rs line 20). -/
def TILE_SIZE : Nat := 64

/-- Modelled from the spec: `Region` of
`ironrdp::codecs::rfx::rectangles_processing` is not under `src/`; the spec
describes it as an ordered set of axis-aligned rectangles kept as a
non-overlapping union of everything inserted, exposing the bounding box of the
stored rectangles as `extents` (the damage rectangle handed back to the
renderer). -/
structure Region where
  rectangles : List Rectangle
  extents : Rectangle
  deriving Repr, DecidableEq

/-- Modelled from the spec: `Region::new()` is the empty region. -/
def Region.new : Region := ⟨[], ⟨0, 0, 0, 0⟩⟩

/-- Modelled from the spec: `Region::union_rectangle` inserts a rectangle so
that the stored union equals the union of all inserted rectangles; the extents
grow to the bounding box of everything inserted (the first insertion sets the
extents to that rectangle). -/
def Region.union_rectangle (region : Region) (r : Rectangle) : Region :=
  { rectangles := region.rectangles ++ [r],
    extents :=
      if region.rectangles = [] then r
      else
        ⟨min region.extents.left r.left, min region.extents.top r.top,
          max region.extents.right r.right, max region.extents.bottom r.bottom⟩ }

/-- `clipping_rectangles` (rfx.rs lines 217-231): clamp each source rectangle,
shifted by the destination offset, to the channel width/height and merge into a
region. -/
def clipping_rectangles (rectangles : List RfxRectangle) (destination : Rectangle)
    (width height : Nat) : Region :=
  (rectangles.map fun r =>
      Rectangle.mk
        (min (destination.left + r.x) width)
        (min (destination.top + r.y) height)
        (min (destination.left + r.x + r.width) width)
        (min (destination.top + r.y + r.height) height)).foldl
    Region.union_rectangle Region.new

/-- `tiles_to_rectangles` (rfx.rs lines 233-240). -/
def tiles_to_rectangles (tiles : List Tile) (destination : Rectangle) : List Rectangle :=
  tiles.map fun t =>
    Rectangle.mk
      (destination.left + t.x * TILE_SIZE)
      (destination.top + t.y * TILE_SIZE)
      (destination.left + t.x * TILE_SIZE + TILE_SIZE)
      (destination.top + t.y * TILE_SIZE + TILE_SIZE)

/-- `struct TileData` (rfx.rs lines 256-259): three quant tables and the three
encoded component slices of one tile. -/
structure TileData where
  quants : Quant × Quant × Quant
  data : List Nat × List Nat × List Nat
  deriving Repr, DecidableEq

/-- `map_tiles_data` (rfx.rs lines 242-254): look up each tile's three quant
tables by index. The Rust code indexes `quants[...]` directly, so an index
outside the sent quant-table list panics; the panic is modelled as `none`. -/
def map_tiles_data (tiles : List Tile) (quants : List Quant) : Option (List TileData) :=
  tiles.mapM fun t => do
    let qy ← quants.get? t.y_quant_index
    let qcb ← quants.get? t.cb_quant_index
    let qcr ← quants.get? t.cr_quant_index
    some ⟨(qy, qcb, qcr), (t.y_data, t.cb_data, t.cr_data)⟩

/-- The reads of the four data-message PDUs
(`FrameBeginPdu/RegionPdu/TileSetPdu/FrameEndPdu::from_buffer_consume`). -/
def readFrameBegin : List RfxMessage → Except RfxError (Nat × List RfxMessage)
  | RfxMessage.frameBegin i :: rest => Except.ok (i, rest)
  | _ => Except.error RfxError.parseError

def readRegion : List RfxMessage → Except RfxError (List RfxRectangle × List RfxMessage)
  | RfxMessage.region rs :: rest => Except.ok (rs, rest)
  | _ => Except.error RfxError.parseError

def readTileSet : List RfxMessage → Except RfxError (TileSetPdu × List RfxMessage)
  | RfxMessage.tileSet ts :: rest => Except.ok (ts, rest)
  | _ => Except.error RfxError.parseError

def readFrameEnd : List RfxMessage → Except RfxError (List RfxMessage)
  | RfxMessage.frameEnd :: rest => Except.ok rest
  | _ => Except.error RfxError.parseError

/-- The per-tile loop body of `process_data_messages` (rfx.rs lines 136-153),
folded with early exit. The step function abstracts `decode_tile` plus
`DecodedImage::apply_tile` (RLGR/DWT/colour pipeline and the image blit, both
outside `src/`); neither touches the returned frame index or damage
rectangle. -/
def runTiles (step : TileData → Rectangle → Except RfxError Unit) :
    List (Rectangle × TileData) → Except RfxError Unit
  | [] => Except.ok ()
  | (r, td) :: rest =>
    match step td r with
    | Except.error e => Except.error e
    | Except.ok _ => runTiles step rest

/-- `DecodingContext::process_data_messages` (rfx.rs lines 101-160). The outer
`Option` models panics (`channels.0.first().unwrap()` on an empty channel list,
and the quant-index panic of `map_tiles_data`); the `Except` carries protocol
errors. On success it returns `(frame_index, clipping_region.extents)`, the
updated context and the unconsumed input. -/
def DecodingContext.process_data_messages (st : DecodingContext) (destination : Rectangle)
    (input : List RfxMessage) (step : TileData → Rectangle → Except RfxError Unit) :
    Option (Except RfxError ((Nat × Rectangle) × DecodingContext × List RfxMessage)) :=
  match st.channels with
  | [] => none
  | channel :: _ =>
    let width := channel.width
    let height := channel.height
    match readFrameBegin input with
    | Except.error e => some (Except.error e)
    | Except.ok (frame_index, input) =>
      match readRegion input with
      | Except.error e => some (Except.error e)
      | Except.ok (rectangles, input) =>
        match readTileSet input with
        | Except.error e => some (Except.error e)
        | Except.ok (tile_set, input) =>
          match readFrameEnd input with
          | Except.error e => some (Except.error e)
          | Except.ok input =>
            let rectangles :=
              if rectangles = [] then [RfxRectangle.mk 0 0 width height] else rectangles
            let clip := clipping_rectangles rectangles destination width height
            match map_tiles_data tile_set.tiles tile_set.quants with
            | none => none
            | some tiles_data =>
              match runTiles step ((tiles_to_rectangles tile_set.tiles destination).zip tiles_data) with
              | Except.error e => some (Except.error e)
              | Except.ok _ =>
                let st' :=
                  if st.context.image_mode then
                    { st with state := SequenceState.headerMessages }
                  else st
                some (Except.ok ((frame_index, clip.extents), st', input))

/-- Containment in the announced channel bounds `[0, w] × [0, h]` (for a
well-formed rectangle; `left ≥ 0` and `top ≥ 0` hold by the `Nat` model). -/
def inBounds (w h : Nat) (r : Rectangle) : Prop :=
  r.right ≤ w ∧ r.bottom ≤ h ∧ r.left ≤ r.right ∧ r.top ≤ r.bottom

instance (w h : Nat) (r : Rectangle) : Decidable (inBounds w h r) := by
  unfold inBounds; infer_instance

lemma union_rectangle_extents_inBounds {w h : Nat} (reg : Region) (r : Rectangle)
    (hr : inBounds w h r) (hreg : reg.rectangles = [] ∨ inBounds w h reg.extents) :
    inBounds w h ((reg.union_rectangle r).extents) := by
  unfold Region.union_rectangle
  by_cases hrec : reg.rectangles = []
  · simpa [hrec] using hr
  · rcases hreg with hreg | hreg
    · exact absurd hreg hrec
    · obtain ⟨h1, h2, h3, h4⟩ := hr
      obtain ⟨g1, g2, g3, g4⟩ := hreg
      refine ⟨?_, ?_, ?_, ?_⟩ <;> simp [hrec, inBounds] <;> omega

lemma foldl_union_rectangle_inBounds {w h : Nat} (l : List Rectangle) (reg : Region)
    (hl : ∀ r ∈ l, inBounds w h r)
    (hreg : reg.rectangles = [] ∨ inBounds w h reg.extents)
    (hne : reg.rectangles ≠ [] ∨ l ≠ []) :
    inBounds w h ((l.foldl Region.union_rectangle reg).extents) := by
  induction l generalizing reg with
  | nil =>
      rcases hne with hne | hne
      · rcases hreg with hreg | hreg
        · exact absurd hreg hne
        · exact hreg
      · exact absurd rfl hne
  | cons r t ih =>
      refine ih (reg.union_rectangle r) (fun x hx => hl x (List.mem_cons_of_mem _ hx))
        (Or.inr (union_rectangle_extents_inBounds reg r (hl r (List.mem_cons_self _ _)) hreg))
        (Or.inl ?_)
      simp [Region.union_rectangle]

lemma clipping_rectangles_extents_inBounds (rs : List RfxRectangle)
    (dest : Rectangle) (w h : Nat) (hrs : rs ≠ []) :
    inBounds w h (clipping_rectangles rs dest w h).extents := by
  unfold clipping_rectangles
  refine foldl_union_rectangle_inBounds _ Region.new ?_ (Or.inl rfl) (Or.inr ?_)
  · intro r hr
    simp only [List.mem_map] at hr
    obtain ⟨x, _, rfl⟩ := hr
    refine ⟨Nat.min_le_right _ _, Nat.min_le_right _ _, ?_, ?_⟩ <;> simp
  · simpa using hrs

/-- C4: whenever `process_data_messages` accepts a
FrameBegin/Region/TileSet/FrameEnd tuple, it returns the FrameBegin frame index
together with the extents (bounding box) of the clipping region obtained by
merging, for each source rectangle (or the synthesized full-channel rectangle
when the region's list is empty), the rectangle
`(min(dest.left+r.x, W), min(dest.top+r.y, H), min(dest.left+r.x+r.w, W),
min(dest.top+r.y+r.h, H))`; the returned damage rectangle is contained in the
announced `W × H` channel bounds. -/
theorem C4_process_data_messages (sstate : SequenceState) (sctx : ContextPdu)
    (channel : RfxChannel) (chs : List RfxChannel) (dest : Rectangle)
    (idx : Nat) (rs : List RfxRectangle) (ts : TileSetPdu) (rest : List RfxMessage)
    (step : TileData → Rectangle → Except RfxError Unit)
    (r : (Nat × Rectangle) × DecodingContext × List RfxMessage)
    (hok : DecodingContext.process_data_messages ⟨sstate, sctx, channel :: chs⟩ dest
        (RfxMessage.frameBegin idx :: RfxMessage.region rs :: RfxMessage.tileSet ts ::
          RfxMessage.frameEnd :: rest) step = some (Except.ok r)) :
    r.1.1 = idx ∧
    r.1.2 = (clipping_rectangles
        (if rs = [] then [RfxRectangle.mk 0 0 channel.width channel.height] else rs)
        dest channel.width channel.height).extents ∧
    inBounds channel.width channel.height r.1.2 := by
  simp only [DecodingContext.process_data_messages, readFrameBegin, readRegion,
    readTileSet, readFrameEnd] at hok
  cases hm : map_tiles_data ts.tiles ts.quants with
  | none =>
      rw [hm] at hok
      cases hok
  | some tds =>
      rw [hm] at hok
      dsimp only at hok
      cases hr : runTiles step ((tiles_to_rectangles ts.tiles dest).zip tds) with
      | error e =>
          rw [hr] at hok
          cases Option.some.inj hok
      | ok u =>
          rw [hr] at hok
          have h := Except.ok.inj (Option.some.inj hok)
          have hfst : r.1 = (idx, (clipping_rectangles
              (if rs = [] then [RfxRectangle.mk 0 0 channel.width channel.height] else rs)
              dest channel.width channel.height).extents) := by
            rw [← h]
          refine ⟨by rw [hfst], by rw [hfst], ?_⟩
          rw [hfst]
          refine clipping_rectangles_extents_inBounds _ dest channel.width channel.height ?_
          by_cases hrs : rs = [] <;> simp [hrs]

/-- C4 (witness): an empty region PDU on a 1024×768 channel with destination
`(0,0,1024,768)` yields frame index 0 and damage `(0,0,1024,768)`, inside the
channel bounds. -/
theorem C4_process_data_messages_witness :
    inBounds 1024 768 (Rectangle.mk 0 0 1024 768) ∧
    (clipping_rectangles [RfxRectangle.mk 0 0 1024 768] (Rectangle.mk 0 0 1024 768)
        1024 768).extents = Rectangle.mk 0 0 1024 768 :=
  ⟨(C4_process_data_messages SequenceState.dataMessages ⟨false, EntropyAlgorithm.rlgr1⟩
      ⟨1024, 768⟩ [] (Rectangle.mk 0 0 1024 768) 0 [] ⟨[], []⟩ []
      (fun _ _ => Except.ok ())
      ((0, Rectangle.mk 0 0 1024 768),
        ⟨SequenceState.dataMessages, ⟨false, EntropyAlgorithm.rlgr1⟩, [⟨1024, 768⟩]⟩, [])
      rfl).2.2,
    by decide⟩

/-- C7: a tile whose Y quant-table index (1) is not below the number of sent
quant tables (1) makes `map_tiles_data` index out of bounds — the Rust code
panics on `quants[usize::from(t.y_quant_index)]` (modelled `none`) instead of
failing the tile with a protocol-error result, and the panic propagates through
`process_data_messages`. -/
theorem C7_quant_index_out_of_range :
    map_tiles_data [Tile.mk 0 0 1 0 0 [] [] []]
        [Quant.mk 6 6 6 6 7 7 8 8 8 9] = none ∧
    DecodingContext.process_data_messages
        ⟨SequenceState.dataMessages, ⟨false, EntropyAlgorithm.rlgr1⟩, [⟨1024, 768⟩]⟩
        (Rectangle.mk 0 0 1024 768)
        [RfxMessage.frameBegin 0, RfxMessage.region [],
          RfxMessage.tileSet ⟨[Quant.mk 6 6 6 6 7 7 8 8 8 9], [Tile.mk 0 0 1 0 0 [] [] []]⟩,
          RfxMessage.frameEnd]
        (fun _ _ => Except.ok ()) = none := by
  exact ⟨rfl, rfl⟩

/-! ## GFX dynamic-channel handler (x224/gfx.rs)

The ZGFX decompressor and the GFX `ServerPdu` wire parser live in the `ironrdp`
crate outside the sources at hand, so `process_complete_data` is modelled from
the point where the decompressed buffer has been parsed into a list of server
PDUs; the serialized client-PDU reply buffer is modelled as the list of
`FrameAcknowledge` PDUs written into it (each acknowledge serializes to a
non-empty byte string, so the buffer is non-empty exactly when the list is). -/

/-- A parsed GFX server PDU: an `EndFrame` with its frame id, or any other
server PDU (tagged opaquely). -/
inductive GfxServerPdu where
  | endFrame (frame_id : Nat)
  | other (tag : Nat)
  deriving Repr, DecidableEq

/-- Modelled from the spec: the GFX `QueueDepth` enum (in the `ironrdp` crate,
not under `src/`); the handler only ever sends `Suspend`. -/
inductive QueueDepth where
  | unavailable
  | suspend
  deriving Repr, DecidableEq

/-- `FrameAcknowledgePdu { queue_depth, frame_id, total_frames_decoded }`. -/
structure FrameAcknowledgePdu where
  queue_depth : QueueDepth
  frame_id : Nat
  total_frames_decoded : Nat
  deriving Repr, DecidableEq

/-- Whether a server PDU is an `EndFrame`. -/
def isEndFrame : GfxServerPdu → Bool
  | GfxServerPdu.endFrame _ => true
  | _ => false

/-- The frame ids of the `EndFrame` PDUs, in order. -/
def endFrames : List GfxServerPdu → List Nat
  | [] => []
  | GfxServerPdu.endFrame fid :: rest => fid :: endFrames rest
  | _ :: rest => endFrames rest

/-- The `while !slice.is_empty()` loop of `Handler::process_complete_data`
(gfx.rs lines 40-57): starting from `frames_decoded`, returns the new counter,
the `FrameAcknowledge` PDUs appended to the reply buffer, and the PDUs handed
to the optional observer channel. -/
def processGfxPdus (frames_decoded : Nat) :
    List GfxServerPdu → Nat × List FrameAcknowledgePdu × List GfxServerPdu
  | [] => (frames_decoded, [], [])
  | GfxServerPdu.endFrame fid :: rest =>
      let fd := frames_decoded + 1
      let next := processGfxPdus fd rest
      (next.1, ⟨QueueDepth.suspend, fid, fd⟩ :: next.2.1, next.2.2)
  | GfxServerPdu.other t :: rest =>
      let next := processGfxPdus frames_decoded rest
      (next.1, next.2.1, GfxServerPdu.other t :: next.2.2)

/-- `Handler::process_complete_data` (gfx.rs lines 34-64) after ZGFX
decompression and PDU parsing: `Some(reply)` exactly when the reply buffer is
non-empty. -/
def process_complete_data (frames_decoded : Nat) (pdus : List GfxServerPdu) :
    Nat × Option (List FrameAcknowledgePdu) × List GfxServerPdu :=
  let r := processGfxPdus frames_decoded pdus
  (r.1, if r.2.1 = [] then none else some r.2.1, r.2.2)

/-- The acknowledgments C5 calls for, written from the spec's words: one
`FrameAcknowledge{queue_depth = Suspend, frame_id, total_frames_decoded}` per
`EndFrame`, with the session-cumulative counter incremented before each. -/
def acksPerSpec (frames_decoded : Nat) : List Nat → List FrameAcknowledgePdu
  | [] => []
  | fid :: rest =>
      ⟨QueueDepth.suspend, fid, frames_decoded + 1⟩ :: acksPerSpec (frames_decoded + 1) rest

lemma processGfxPdus_eq (pdus : List GfxServerPdu) : ∀ fd : Nat,
    processGfxPdus fd pdus =
      (fd + (endFrames pdus).length, acksPerSpec fd (endFrames pdus),
        pdus.filter fun p => !(isEndFrame p)) := by
  induction pdus with
  | nil => intro fd; simp [processGfxPdus, endFrames, acksPerSpec]
  | cons p rest ih =>
      intro fd
      cases p with
      | endFrame fid =>
          simp only [processGfxPdus, endFrames, acksPerSpec, ih (fd + 1),
            List.filter_cons, isEndFrame, List.length_cons]
          refine Prod.ext ?_ (Prod.ext rfl ?_) <;> simp; omega
      | other t =>
          simp only [processGfxPdus, endFrames, acksPerSpec, ih fd,
            List.filter_cons, isEndFrame]
          simp

lemma endFrames_ne_nil_iff (pdus : List GfxServerPdu) :
    endFrames pdus ≠ [] ↔ ∃ fid, GfxServerPdu.endFrame fid ∈ pdus := by
  induction pdus with
  | nil => simp [endFrames]
  | cons p rest ih =>
      cases p with
      | endFrame fid => simp [endFrames]
      | other t => simpa [endFrames] using ih

/-- C5: the GFX handler walks the parsed PDUs of the decompressed payload;
for each `EndFrame` it increments the cumulative `frames_decoded` counter and
appends exactly one `FrameAcknowledge{queue_depth = Suspend, frame_id,
total_frames_decoded}`; non-EndFrame PDUs yield no acknowledgment and are
forwarded to the observer; the result is `Some(reply)` exactly when at least
one `EndFrame` was present. Injecting `EndFrame{frame_id = 7}` into a fresh
handler produces `FrameAcknowledge{Suspend, 7, 1}`. -/
theorem C5_gfx_process_complete_data (fd : Nat) (pdus : List GfxServerPdu) :
    processGfxPdus fd pdus =
      (fd + (endFrames pdus).length, acksPerSpec fd (endFrames pdus),
        pdus.filter fun p => !(isEndFrame p)) ∧
    ((process_complete_data fd pdus).2.1.isSome ↔
      ∃ fid, GfxServerPdu.endFrame fid ∈ pdus) ∧
    process_complete_data 0 [GfxServerPdu.endFrame 7] =
      (1, some [⟨QueueDepth.suspend, 7, 1⟩], []) := by
  refine ⟨processGfxPdus_eq pdus fd, ?_, by decide⟩
  rw [← endFrames_ne_nil_iff]
  unfold process_complete_data
  rw [processGfxPdus_eq pdus fd]
  rcases h : endFrames pdus with _ | ⟨fid, rest⟩ <;> simp [h, acksPerSpec]

/-- C5 (witness): the spec's EndFrame scenario at a fresh handler. -/
theorem C5_gfx_process_complete_data_witness :
    process_complete_data 0 [GfxServerPdu.endFrame 7] =
      (1, some [⟨QueueDepth.suspend, 7, 1⟩], []) :=
  (C5_gfx_process_complete_data 0 [GfxServerPdu.endFrame 7]).2.2

/-! ## Active-stage loop (active_session.rs lines 88-138) and MCS decode
(transport.rs lines 174-196) -/

/-- The client `RdpError` variants reachable from the verified paths. -/
inductive ClientError where
  | unexpectedDisconnection (message : String)
  | unexpectedChannel (channel_id : Nat)
  | unexpectedPdu (message : String)
  | serverError (message : String)
  | accessToNonExistingChannel (channel_id : Nat)
  | accessToNonExistingChannelName (name : String)
  | lockPoisoned
  | ioError
  | fastPathError
  deriving Repr, DecidableEq

/-- `ChannelIdentificators { initiator_id, channel_id }`. -/
structure ChannelIdentificators where
  initiator_id : Nat
  channel_id : Nat
  deriving Repr, DecidableEq

/-- The MCS PDUs relevant to `SendDataContextTransport::decode`: a
Send-Data-Indication, a Disconnect-Provider-Ultimatum (with its printed
reason), or any other MCS PDU (with its short name). -/
inductive McsPdu where
  | sendDataIndication (initiator_id channel_id : Nat)
  | disconnectProviderUltimatum (reason : String)
  | otherPdu (short_name : String)
  deriving Repr, DecidableEq

/-- `SendDataContextTransport::decode` (transport.rs lines 174-196) after the
inner MCS transport has produced `(mcs_pdu, remaining)`. -/
def send_data_context_decode (mcs_pdu : McsPdu) (remaining : Option (List Nat)) :
    Except ClientError (ChannelIdentificators × Option (List Nat)) :=
  match mcs_pdu with
  | McsPdu.sendDataIndication initiator_id channel_id =>
      Except.ok (⟨initiator_id, channel_id⟩, remaining)
  | McsPdu.disconnectProviderUltimatum reason =>
      Except.error (ClientError.unexpectedDisconnection
        ("Server disconnection reason - " ++ reason))
  | McsPdu.otherPdu short_name =>
      Except.error (ClientError.unexpectedPdu
        ("Expected Send Data Context PDU, got " ++ short_name))

/-- The two error variants on which the X224 arm of the loop breaks cleanly
(`active_session.rs` lines 102-109). -/
def isCleanErr : ClientError → Bool
  | ClientError.unexpectedDisconnection _ => true
  | ClientError.unexpectedChannel _ => true
  | ClientError.unexpectedPdu _ => false
  | ClientError.serverError _ => false
  | ClientError.accessToNonExistingChannel _ => false
  | ClientError.accessToNonExistingChannelName _ => false
  | ClientError.lockPoisoned => false
  | ClientError.ioError => false
  | ClientError.fastPathError => false

/-- One iteration's worth of input to the active-stage loop: the outcome of
`rdp_transport.decode` together with the outcome of the processing it
dispatches to. `nullLength` carries the outcome of the draining
`read_exact`. -/
inductive LoopEvent where
  | x224 (result : Except ClientError Unit)
  | fastPath (result : Except ClientError Unit)
  | nullLength (readResult : Except ClientError Unit)
  | decodeError (e : ClientError)

/-- `process_inner` (active_session.rs lines 88-138) over a finite trace of
loop-iteration inputs: `none` means every event was consumed and the loop is
still waiting for the next PDU; `some r` means the loop exited with `r`. -/
def processInner : List LoopEvent → Option (Except ClientError Unit)
  | [] => none
  | LoopEvent.x224 (Except.ok _) :: rest => processInner rest
  | LoopEvent.x224 (Except.error e) :: _ =>
      if isCleanErr e then some (Except.ok ()) else some (Except.error e)
  | LoopEvent.fastPath (Except.ok _) :: rest => processInner rest
  | LoopEvent.fastPath (Except.error e) :: _ => some (Except.error e)
  | LoopEvent.nullLength (Except.ok _) :: rest => processInner rest
  | LoopEvent.nullLength (Except.error e) :: _ => some (Except.error e)
  | LoopEvent.decodeError e :: _ => some (Except.error e)

/-- Whether an iteration lets the loop continue to the next read. -/
def stepContinues : LoopEvent → Bool
  | LoopEvent.x224 (Except.ok _) => true
  | LoopEvent.x224 (Except.error _) => false
  | LoopEvent.fastPath (Except.ok _) => true
  | LoopEvent.fastPath (Except.error _) => false
  | LoopEvent.nullLength (Except.ok _) => true
  | LoopEvent.nullLength (Except.error _) => false
  | LoopEvent.decodeError _ => false

/-- Whether an iteration makes the loop `break` with `Ok(())`: exactly an X224
outcome of `UnexpectedDisconnection` or `UnexpectedChannel`. -/
def cleanExit : LoopEvent → Bool
  | LoopEvent.x224 (Except.ok _) => false
  | LoopEvent.x224 (Except.error e) => isCleanErr e
  | LoopEvent.fastPath _ => false
  | LoopEvent.nullLength _ => false
  | LoopEvent.decodeError _ => false

/-- The error an iteration makes the loop return, if any. -/
def stepError : LoopEvent → Option ClientError
  | LoopEvent.x224 (Except.ok _) => none
  | LoopEvent.x224 (Except.error e) => if isCleanErr e then none else some e
  | LoopEvent.fastPath (Except.ok _) => none
  | LoopEvent.fastPath (Except.error e) => some e
  | LoopEvent.nullLength (Except.ok _) => none
  | LoopEvent.nullLength (Except.error e) => some e
  | LoopEvent.decodeError e => some e

lemma processInner_cons (ev : LoopEvent) (rest : List LoopEvent) :
    processInner (ev :: rest) =
      if stepContinues ev then processInner rest
      else if cleanExit ev then some (Except.ok ())
      else (stepError ev).map Except.error := by
  rcases ev with r | r | r | e
  · rcases r with e | _
    · by_cases hce : isCleanErr e = true <;>
        simp [processInner, stepContinues, cleanExit, stepError, hce]
    · simp [processInner, stepContinues]
  · rcases r with e | _ <;> simp [processInner, stepContinues, cleanExit, stepError]
  · rcases r with e | _ <;> simp [processInner, stepContinues, cleanExit, stepError]
  · simp [processInner, stepContinues, cleanExit, stepError]

lemma stepError_of_not (ev : LoopEvent) (h1 : stepContinues ev = false)
    (h2 : cleanExit ev = false) : ∃ e, stepError ev = some e := by
  rcases ev with r | r | r | e
  · rcases r with e | _
    · simp only [cleanExit] at h2
      exact ⟨e, by simp [stepError, h2]⟩
    · simp [stepContinues] at h1
  · rcases r with e | _
    · exact ⟨e, rfl⟩
    · simp [stepContinues] at h1
  · rcases r with e | _
    · exact ⟨e, rfl⟩
    · simp [stepContinues] at h1
  · exact ⟨e, rfl⟩

lemma cleanExit_not_continue (ev : LoopEvent) (h : cleanExit ev = true) :
    stepContinues ev = false := by
  rcases ev with r | r | r | e
  · rcases r with e | _
    · rfl
    · simp [cleanExit] at h
  · simp [cleanExit] at h
  · simp [cleanExit] at h
  · simp [cleanExit] at h

lemma stepError_of_continue (ev : LoopEvent) (h : stepContinues ev = true) :
    stepError ev = none := by
  rcases ev with r | r | r | e
  · rcases r with e | _
    · simp [stepContinues] at h
    · rfl
  · rcases r with e | _
    · simp [stepContinues] at h
    · rfl
  · rcases r with e | _
    · simp [stepContinues] at h
    · rfl
  · simp [stepContinues] at h

lemma stepError_of_cleanExit (ev : LoopEvent) (h : cleanExit ev = true) :
    stepError ev = none := by
  rcases ev with r | r | r | e
  · rcases r with e | _
    · simp only [cleanExit] at h
      simp [stepError, h]
    · rfl
  · simp [cleanExit] at h
  · simp [cleanExit] at h
  · simp [cleanExit] at h

lemma processInner_ok_iff (evs : List LoopEvent) :
    processInner evs = some (Except.ok ()) ↔
      ∃ (i : Nat) (h : i < evs.length), cleanExit (evs.get ⟨i, h⟩) = true ∧
        ∀ j (hj : j < i), stepContinues (evs.get ⟨j, Nat.lt_trans hj h⟩) = true := by
  induction evs with
  | nil => simp [processInner]
  | cons ev rest ih =>
      rw [processInner_cons]
      by_cases hc : stepContinues ev = true
      · rw [if_pos hc, ih]
        constructor
        · rintro ⟨i, h, hclean, hcont⟩
          refine ⟨i + 1, Nat.succ_lt_succ h, by simpa using hclean, ?_⟩
          intro j hj
          cases j with
          | zero => simpa using hc
          | succ j => simpa using hcont j (Nat.lt_of_succ_lt_succ hj)
        · rintro ⟨i, h, hclean, hcont⟩
          cases i with
          | zero =>
              exfalso
              have hcl := cleanExit_not_continue ev (by simpa using hclean)
              rw [hc] at hcl
              simp at hcl
          | succ i =>
              refine ⟨i, Nat.lt_of_succ_lt_succ h, by simpa using hclean, ?_⟩
              intro j hj
              simpa using hcont (j + 1) (Nat.succ_lt_succ hj)
      · rw [if_neg hc]
        by_cases hcl : cleanExit ev = true
        · rw [if_pos hcl]
          refine iff_of_true rfl ⟨0, Nat.succ_pos _, by simpa using hcl, ?_⟩
          intro j hj
          exact absurd hj (Nat.not_lt_zero j)
        · rw [if_neg hcl]
          constructor
          · intro hmap
            rcases hse : stepError ev with _ | e <;> rw [hse] at hmap <;> simp at hmap
          · rintro ⟨i, h, hclean, hcont⟩
            cases i with
            | zero => exact absurd (by simpa using hclean) hcl
            | succ i => exact absurd (by simpa using hcont 0 (Nat.succ_pos i)) hc

lemma processInner_err_iff (evs : List LoopEvent) (e : ClientError) :
    processInner evs = some (Except.error e) ↔
      ∃ (i : Nat) (h : i < evs.length), stepError (evs.get ⟨i, h⟩) = some e ∧
        ∀ j (hj : j < i), stepContinues (evs.get ⟨j, Nat.lt_trans hj h⟩) = true := by
  induction evs with
  | nil => simp [processInner]
  | cons ev rest ih =>
      rw [processInner_cons]
      by_cases hc : stepContinues ev = true
      · rw [if_pos hc, ih]
        constructor
        · rintro ⟨i, h, herr, hcont⟩
          refine ⟨i + 1, Nat.succ_lt_succ h, by simpa using herr, ?_⟩
          intro j hj
          cases j with
          | zero => simpa using hc
          | succ j => simpa using hcont j (Nat.lt_of_succ_lt_succ hj)
        · rintro ⟨i, h, herr, hcont⟩
          cases i with
          | zero =>
              exfalso
              have h0 : stepError ev = some e := by simpa using herr
              rw [stepError_of_continue ev hc] at h0
              simp at h0
          | succ i =>
              refine ⟨i, Nat.lt_of_succ_lt_succ h, by simpa using herr, ?_⟩
              intro j hj
              simpa using hcont (j + 1) (Nat.succ_lt_succ hj)
      · rw [if_neg hc]
        by_cases hcl : cleanExit ev = true
        · rw [if_pos hcl]
          constructor
          · intro hcontra
            simp at hcontra
          · rintro ⟨i, h, herr, hcont⟩
            cases i with
            | zero =>
                have h0 : stepError ev = some e := by simpa using herr
                rw [stepError_of_cleanExit ev hcl] at h0
                simp at h0
            | succ i => exact absurd (by simpa using hcont 0 (Nat.succ_pos i)) hc
        · rw [if_neg hcl]
          obtain ⟨e', he'⟩ := stepError_of_not ev (by simpa using hc) (by simpa using hcl)
          rw [he']
          constructor
          · intro hh
            have hee : e' = e := by simpa using hh
            subst hee
            refine ⟨0, Nat.succ_pos _, by simpa using he', ?_⟩
            intro j hj
            exact absurd hj (Nat.not_lt_zero j)
          · rintro ⟨i, h, herr, hcont⟩
            cases i with
            | zero =>
                have h0 : stepError ev = some e := by simpa using herr
                rw [he'] at h0
                simpa using h0
            | succ i => exact absurd (by simpa using hcont 0 (Nat.succ_pos i)) hc

/-- C6: the active-stage loop exits with `Ok(())` exactly when, after a run of
iterations that all continue, X224 processing yields `UnexpectedDisconnection`
or `UnexpectedChannel`; it exits with `Err e` exactly when the first
non-continuing iteration produces any other processing or decode error `e`;
and the MCS layer turns a `DisconnectProviderUltimatum` into
`UnexpectedDisconnection`. -/
theorem C6_loop_exit (evs : List LoopEvent) :
    (processInner evs = some (Except.ok ()) ↔
      ∃ (i : Nat) (h : i < evs.length), cleanExit (evs.get ⟨i, h⟩) = true ∧
        ∀ j (hj : j < i), stepContinues (evs.get ⟨j, Nat.lt_trans hj h⟩) = true) ∧
    (∀ e : ClientError, processInner evs = some (Except.error e) ↔
      ∃ (i : Nat) (h : i < evs.length), stepError (evs.get ⟨i, h⟩) = some e ∧
        ∀ j (hj : j < i), stepContinues (evs.get ⟨j, Nat.lt_trans hj h⟩) = true) ∧
    (∀ reason remaining, send_data_context_decode
        (McsPdu.disconnectProviderUltimatum reason) remaining =
      Except.error (ClientError.unexpectedDisconnection
        ("Server disconnection reason - " ++ reason))) :=
  ⟨processInner_ok_iff evs, fun e => processInner_err_iff evs e, fun _ _ => rfl⟩

/-- C6 (witness): one successfully processed X224 PDU followed by an
`UnexpectedDisconnection` makes the loop exit with `Ok(())`, while a server
error instead makes it return that error. -/
theorem C6_loop_exit_witness :
    processInner [LoopEvent.x224 (Except.ok ()),
        LoopEvent.x224 (Except.error (ClientError.unexpectedDisconnection "bye"))] =
      some (Except.ok ()) ∧
    processInner [LoopEvent.x224 (Except.error (ClientError.serverError "oops"))] =
      some (Except.error (ClientError.serverError "oops")) :=
  ⟨(C6_loop_exit [LoopEvent.x224 (Except.ok ()),
        LoopEvent.x224 (Except.error (ClientError.unexpectedDisconnection "bye"))]).1.mpr
      ⟨1, by decide, rfl, fun j hj => by
        interval_cases j
        rfl⟩,
    ((C6_loop_exit [LoopEvent.x224 (Except.error (ClientError.serverError "oops"))]).2.1
        (ClientError.serverError "oops")).mpr
      ⟨0, by decide, rfl, fun j hj => absurd hj (Nat.not_lt_zero j)⟩⟩
/-! ## X224 processor channel dispatch (x224.rs lines 52-86) -/

/-- `vc::DRDYNVC_CHANNEL_NAME` lives in the `ironrdp` crate outside `src/`;
the spec's glossary names the static channel `DRDYNVC`. Only its identity
matters for the dispatch. -/
def DRDYNVC_CHANNEL_NAME : String := "drdynvc"

/-- The four ways `Processor::process` can branch on the decoded channel id. -/
inductive ProcessBranch where
  | dvc
  | globalChannel
  | unexpectedChannel (channel_id : Nat)
  | panicUnknownChannel (channel_id : Nat)
  deriving Repr, DecidableEq

/-- The channel dispatch of `Processor::process` (x224.rs lines 61-85): look
the decoded channel id up in `static_channels`; DRDYNVC goes to the DVC path,
the global channel to the ShareData path, any other known channel raises
`UnexpectedChannel`, and an id absent from the map runs
`panic!("Channel with {} ID must be added", channel_id)` — modelled as
`panicUnknownChannel`, distinct from every returned error. -/
def classify_channel (static_channels : List (Nat × String))
    (global_channel_name : String) (channel_id : Nat) : ProcessBranch :=
  match static_channels.lookup channel_id with
  | some name =>
      if name = DRDYNVC_CHANNEL_NAME then ProcessBranch.dvc
      else if name = global_channel_name then ProcessBranch.globalChannel
      else ProcessBranch.unexpectedChannel channel_id
  | none => ProcessBranch.panicUnknownChannel channel_id

/-- C8 (code behaviour at the failing input): a Send-Data-Indication whose
channel id was never announced (absent from `static_channels`) makes
`Processor::process` panic instead of returning a protocol error to its
caller. -/
theorem C8_unknown_channel_panics (static_channels : List (Nat × String))
    (global_channel_name : String) (channel_id : Nat)
    (h : static_channels.lookup channel_id = none) :
    classify_channel static_channels global_channel_name channel_id =
      ProcessBranch.panicUnknownChannel channel_id := by
  unfold classify_channel
  rw [h]

/-- C8 (witness): channel id 42 with no announced static channels. -/
theorem C8_unknown_channel_panics_witness :
    classify_channel [] "GLOBAL" 42 = ProcessBranch.panicUnknownChannel 42 :=
  C8_unknown_channel_panics [] "GLOBAL" 42 rfl

/-! ## One-PDU framed reader (ironrdp lib.rs lines 116-154) -/

/-- `async_read_complete_pdu` (lib.rs lines 116-154) over a byte list: reads
the header byte, takes its low two bits as the action, then reads the X224
(reserved byte + big-endian u16) or fast-path (one or two byte) length and
returns the header bytes followed by the remaining `length - header_size`
bytes of the PDU. `none` models a read failure (stream exhausted), an invalid
action code, or the slicing panic when the announced length is smaller than
the bytes already read. -/
def read_complete_pdu (input : List Nat) : Option (List Nat) :=
  match input with
  | [] => none
  | header :: rest =>
    let action := header &&& 3
    if action = 3 then
      match rest with
      | reserved :: l1 :: l2 :: rest2 =>
          let length := l1 * 256 + l2
          if length < 4 then none
          else if rest2.length < length - 4 then none
          else some ([header, reserved, l1, l2] ++ rest2.take (length - 4))
      | _ => none
    else if action = 0 then
      match rest with
      | a :: rest2 =>
          if a &&& 128 ≠ 0 then
            match rest2 with
            | b :: rest3 =>
                let length := ((a &&& 65407) <<< 8) + b
                if length < 3 then none
                else if rest3.length < length - 3 then none
                else some ([header, a, b] ++ rest3.take (length - 3))
            | [] => none
          else
            let length := a
            if length < 2 then none
            else if rest2.length < length - 2 then none
            else some ([header, a] ++ rest2.take (length - 2))
      | [] => none
    else none

lemma and_127_eq_mod (a : Nat) : a &&& 127 = a % 128 := by
  have h := Nat.and_pow_two_sub_one_eq_mod a 7
  norm_num at h
  exact h

lemma byte_and_65407 (a : Nat) (h : a < 256) : a &&& 65407 = a &&& 127 := by
  have h255 : a &&& 255 = a := by
    have h8 := Nat.and_pow_two_sub_one_eq_mod a 8
    norm_num at h8
    rw [h8]
    exact Nat.mod_eq_of_lt h
  calc a &&& 65407 = (a &&& 255) &&& 65407 := by rw [h255]
    _ = a &&& (255 &&& 65407) := Nat.and_assoc a 255 65407
    _ = a &&& 127 := by rw [show (255 &&& 65407 : Nat) = 127 by decide]

lemma shift_or_eq_add (x b : Nat) (hb : b < 256) : (x <<< 8) ||| b = x * 256 + b := by
  rw [Nat.shiftLeft_eq]
  have h := Nat.mul_add_lt_is_or (show b < 2 ^ 8 by omega) x
  calc x * 2 ^ 8 ||| b = 2 ^ 8 * x ||| b := by rw [Nat.mul_comm]
    _ = 2 ^ 8 * x + b := h.symm
    _ = x * 256 + b := by ring

/-- C9: on well-formed framed input the one-PDU reader returns a buffer whose
total length is: for X224 (action bits `0b11`) the big-endian u16 read after
one reserved byte, counting the whole PDU including the 4 header bytes; for
fast-path (action bits `0b00`) the single length byte when its MSB is clear,
and `((first & 0x7F) << 8) | second` using one extra byte when the MSB is
set. -/
theorem C9_read_complete_pdu_length :
    (∀ header reserved l1 l2 : Nat, ∀ rest : List Nat,
      header &&& 3 = 3 →
      4 ≤ l1 * 256 + l2 → l1 * 256 + l2 - 4 ≤ rest.length →
      ∃ buf, read_complete_pdu (header :: reserved :: l1 :: l2 :: rest) = some buf ∧
        buf.length = l1 * 256 + l2) ∧
    (∀ header a : Nat, ∀ rest : List Nat,
      header &&& 3 = 0 → a &&& 128 = 0 →
      2 ≤ a → a - 2 ≤ rest.length →
      ∃ buf, read_complete_pdu (header :: a :: rest) = some buf ∧
        buf.length = a) ∧
    (∀ header a b : Nat, ∀ rest : List Nat,
      header &&& 3 = 0 → a &&& 128 ≠ 0 → a < 256 → b < 256 →
      3 ≤ ((a &&& 127) <<< 8) ||| b → (((a &&& 127) <<< 8) ||| b) - 3 ≤ rest.length →
      ∃ buf, read_complete_pdu (header :: a :: b :: rest) = some buf ∧
        buf.length = ((a &&& 127) <<< 8) ||| b) := by
  refine ⟨?_, ?_, ?_⟩
  · intro header reserved l1 l2 rest hact hge hlen
    refine ⟨[header, reserved, l1, l2] ++ rest.take (l1 * 256 + l2 - 4), ?_, ?_⟩
    · simp only [read_complete_pdu, hact, if_true, eq_self_iff_true]
      rw [if_neg (by omega), if_neg (by omega)]
    · simp [List.length_take]
      omega
  · intro header a rest hact hmsb hge hlen
    refine ⟨[header, a] ++ rest.take (a - 2), ?_, ?_⟩
    · simp only [read_complete_pdu, hact, if_true, eq_self_iff_true, hmsb, ne_eq,
        not_true_eq_false, not_false_eq_true, if_false]
      rw [if_neg (by omega), if_neg (by omega), if_neg (by omega)]
    · simp [List.length_take]
      omega
  · intro header a b rest hact hmsb ha hb hge hlen
    have hlen_eq : ((a &&& 65407) <<< 8) + b = ((a &&& 127) <<< 8) ||| b := by
      rw [byte_and_65407 a ha, shift_or_eq_add _ b hb, Nat.shiftLeft_eq]
    refine ⟨[header, a, b] ++ rest.take ((((a &&& 127) <<< 8) ||| b) - 3), ?_, ?_⟩
    · simp only [read_complete_pdu, hact, if_true, eq_self_iff_true]
      rw [if_neg (by omega), if_pos hmsb, hlen_eq, if_neg (by omega),
        if_neg (by omega)]
    · simp [List.length_take]
      omega

set_option maxRecDepth 4000 in
/-- C9 (witness): an X224 PDU of announced total length 10, a fast-path PDU
with one-byte length 5, and a fast-path PDU with the two-byte length
`((0x81 & 0x7F) << 8) | 2 = 258`. -/
theorem C9_read_complete_pdu_length_witness :
    (∃ buf, read_complete_pdu (3 :: 0 :: 0 :: 10 :: [1, 2, 3, 4, 5, 6]) = some buf ∧
      buf.length = 0 * 256 + 10) ∧
    (∃ buf, read_complete_pdu (0 :: 5 :: [9, 9, 9]) = some buf ∧ buf.length = 5) ∧
    (∃ buf, read_complete_pdu (0 :: 129 :: 2 :: List.replicate 255 7) = some buf ∧
      buf.length = ((129 &&& 127) <<< 8) ||| 2) :=
  ⟨C9_read_complete_pdu_length.1 3 0 0 10 [1, 2, 3, 4, 5, 6]
      (by decide) (by decide) (by decide),
    C9_read_complete_pdu_length.2.1 0 5 [9, 9, 9]
      (by decide) (by decide) (by decide) (by decide),
    C9_read_complete_pdu_length.2.2 0 129 2 (List.replicate 255 7)
      (by decide) (by decide) (by decide) (by decide) (by decide)
      (by decide)⟩

/-! ## DVC channel bookkeeping: CloseRequest and send (x224.rs lines 88-123 and
176-191) -/

/-- `dvc::FieldType`: how a dynamic channel id is serialized on the wire. -/
inductive FieldType where
  | u8
  | u16
  | u32
  deriving Repr, DecidableEq

/-- `struct DynamicChannel` (x224.rs lines 317-322); the handler object is
irrelevant to the bookkeeping claims and omitted. -/
structure DynamicChannel where
  data : CompleteData
  channel_id_type : FieldType
  channel_id : Nat
  deriving Repr, DecidableEq

/-- The maps owned by `Processor` (x224.rs lines 24-32); the hash maps are
modelled as association lists with `HashMap::get` as `List.lookup`. -/
structure Processor where
  static_channels : List (Nat × String)
  channel_map : List (String × Nat)
  dynamic_channels : List (Nat × DynamicChannel)
  user_id : Nat
  drdynvc_channel_id : Nat
  deriving Repr, DecidableEq

/-- The state effect of the `dvc::ServerPdu::CloseRequest` arm of
`Processor::process_dvc_message` (x224.rs lines 176-191): after sending the
close response, `self.dynamic_channels.remove(&close_request.channel_id)`;
`channel_map` and `static_channels` are not touched. -/
def Processor.process_close_request (p : Processor) (close_channel_id : Nat) : Processor :=
  { p with dynamic_channels :=
      p.dynamic_channels.filter fun kv => kv.1 != close_channel_id }

/-- The header of the `DataPdu` that `Processor::send` would encode. -/
structure DataPduHeader where
  channel_id_type : FieldType
  channel_id : Nat
  data_size : Nat
  deriving Repr, DecidableEq

/-- `Processor::send` (x224.rs lines 88-123): resolve the channel name through
`channel_map`, then the dynamic id through `dynamic_channels`; on success
encode a `DataPdu` carrying the channel's id type, its id and the message
length. -/
def Processor.send (p : Processor) (channel_name : String) (message : List Nat) :
    Except ClientError DataPduHeader :=
  match p.channel_map.lookup channel_name with
  | none => Except.error (ClientError.accessToNonExistingChannelName channel_name)
  | some channel_id =>
    match p.dynamic_channels.lookup channel_id with
    | none => Except.error (ClientError.accessToNonExistingChannel channel_id)
    | some channel =>
        Except.ok ⟨channel.channel_id_type, channel.channel_id, message.length⟩

lemma lookup_filter_self {α : Type} (l : List (Nat × α)) (c : Nat) :
    (l.filter fun kv => kv.1 != c).lookup c = none := by
  induction l with
  | nil => rfl
  | cons kv t ih =>
      by_cases hk : kv.1 = c
      · simp [List.filter_cons, hk, ih]
      · have hck : (c == kv.1) = false := beq_eq_false_iff_ne.mpr (Ne.symm hk)
        simp [List.filter_cons, hk, List.lookup, hck, ih]

lemma lookup_filter_other {α : Type} (l : List (Nat × α)) (c d : Nat) (hdc : d ≠ c) :
    (l.filter fun kv => kv.1 != c).lookup d = l.lookup d := by
  induction l with
  | nil => rfl
  | cons kv t ih =>
      by_cases hk : kv.1 = c
      · have hne : (d == kv.1) = false :=
          beq_eq_false_iff_ne.mpr (fun hd => hdc (hd.trans hk))
        simp [List.filter_cons, hk, List.lookup, hne, ih,
          beq_eq_false_iff_ne.mpr hdc]
      · by_cases hd : d = kv.1
        · simp [List.filter_cons, hk, List.lookup, hd]
        · have hne : (d == kv.1) = false := beq_eq_false_iff_ne.mpr hd
          simp [List.filter_cons, hk, List.lookup, hne, ih]

/-- C10: after the CloseRequest arm removes channel id `c`, that entry is gone
from `dynamic_channels` while every other dynamic channel, the whole
`channel_map` and the `static_channels` map are unchanged; a subsequent send
addressed to a name still mapping to `c` therefore resolves the stale name→id
entry and fails with `AccessToNonExistingChannel(c)`, not with
`AccessToNonExistingChannelName`. -/
theorem C10_close_request_effect (p : Processor) (c : Nat) (message : List Nat) :
    ((p.process_close_request c).dynamic_channels.lookup c = none) ∧
    (∀ d, d ≠ c → (p.process_close_request c).dynamic_channels.lookup d =
      p.dynamic_channels.lookup d) ∧
    (p.process_close_request c).channel_map = p.channel_map ∧
    (p.process_close_request c).static_channels = p.static_channels ∧
    (∀ name, p.channel_map.lookup name = some c →
      (p.process_close_request c).send name message =
        Except.error (ClientError.accessToNonExistingChannel c)) := by
  refine ⟨lookup_filter_self p.dynamic_channels c,
    fun d hdc => lookup_filter_other p.dynamic_channels c d hdc, rfl, rfl, ?_⟩
  intro name hname
  unfold Processor.send Processor.process_close_request
  simp only
  rw [hname]
  dsimp only
  rw [lookup_filter_self p.dynamic_channels c]

/-- C10 (witness): create the graphics channel under id 5, close id 5, then
send to the graphics name. -/
theorem C10_close_request_effect_witness :
    (Processor.process_close_request
        ⟨[(7, "drdynvc")], [("Microsoft::Windows::RDS::Graphics", 5)],
          [(5, ⟨CompleteData.new, FieldType.u32, 5⟩)], 1001, 7⟩ 5).send
        "Microsoft::Windows::RDS::Graphics" [1, 2, 3] =
      Except.error (ClientError.accessToNonExistingChannel 5) ∧
    (Processor.process_close_request
        ⟨[(7, "drdynvc")], [("Microsoft::Windows::RDS::Graphics", 5)],
          [(5, ⟨CompleteData.new, FieldType.u32, 5⟩)], 1001, 7⟩ 5).channel_map =
      [("Microsoft::Windows::RDS::Graphics", 5)] :=
  ⟨(C10_close_request_effect
      ⟨[(7, "drdynvc")], [("Microsoft::Windows::RDS::Graphics", 5)],
        [(5, ⟨CompleteData.new, FieldType.u32, 5⟩)], 1001, 7⟩ 5 [1, 2, 3]).2.2.2.2
      "Microsoft::Windows::RDS::Graphics" rfl,
    (C10_close_request_effect
      ⟨[(7, "drdynvc")], [("Microsoft::Windows::RDS::Graphics", 5)],
        [(5, ⟨CompleteData.new, FieldType.u32, 5⟩)], 1001, 7⟩ 5 [1, 2, 3]).2.2.1⟩

end IronRdp
